import Mathlib

/-!
Verification development for the a2a-trace repository (Go).

The Go sources under internal/proxy, internal/analyzer, internal/process and
internal/store are shallowly embedded below.  Machine integers are modelled as
Nat / Int (all quantities involved stay far from overflow), Go strings as Lean
String, Go maps with zero-valued misses as total functions, and SQL tables as
lists of rows.  Where the Go code consults the result of a json.Unmarshal of a
request or response body, the embedding takes the parse outcome as an explicit
argument (the fields the code reads from the parsed value), since the claims
under study are about the control flow around the parse, not about JSON
decoding itself.  Nondeterministic fields (UUIDs, wall-clock timestamps) are
passed in as parameters.
-/

set_option autoImplicit false
set_option maxRecDepth 4000

namespace A2ATrace

/-! ### String helpers mirroring the Go strings package -/

/-- Go strings.Contains: true when sub occurs inside s (always true for the
empty pattern), expressed through list infixes. -/
def containsStr (s sub : String) : Bool :=
  decide (sub.toList <:+: s.toList)

/-- Go strings.TrimPrefix: drop pre when it is a prefix of s, otherwise s
(computed on the character list so that it evaluates by reduction). -/
def trimPrefixStr (s pre : String) : String :=
  if pre.toList.isPrefixOf s.toList then String.mk (s.toList.drop pre.length)
  else s

/-- Go strings.Split(e, a)[0] for the one-character separator used in
buildEnv: the part of e before the first occurrence of that character. -/
def envKey (e : String) : String :=
  String.mk (e.toList.takeWhile (· ≠ '='))

/-! ### net/http StatusText (the table from the Go standard library) -/

/-- Go http.StatusText: the canonical reason phrase for an HTTP status code,
empty for unknown codes. -/
def statusText : Nat → String
  | 100 => "Continue"
  | 101 => "Switching Protocols"
  | 102 => "Processing"
  | 103 => "Early Hints"
  | 200 => "OK"
  | 201 => "Created"
  | 202 => "Accepted"
  | 203 => "Non-Authoritative Information"
  | 204 => "No Content"
  | 205 => "Reset Content"
  | 206 => "Partial Content"
  | 207 => "Multi-Status"
  | 208 => "Already Reported"
  | 226 => "IM Used"
  | 300 => "Multiple Choices"
  | 301 => "Moved Permanently"
  | 302 => "Found"
  | 303 => "See Other"
  | 304 => "Not Modified"
  | 305 => "Use Proxy"
  | 307 => "Temporary Redirect"
  | 308 => "Permanent Redirect"
  | 400 => "Bad Request"
  | 401 => "Unauthorized"
  | 402 => "Payment Required"
  | 403 => "Forbidden"
  | 404 => "Not Found"
  | 405 => "Method Not Allowed"
  | 406 => "Not Acceptable"
  | 407 => "Proxy Authentication Required"
  | 408 => "Request Timeout"
  | 409 => "Conflict"
  | 410 => "Gone"
  | 411 => "Length Required"
  | 412 => "Precondition Failed"
  | 413 => "Request Entity Too Large"
  | 414 => "Request URI Too Long"
  | 415 => "Unsupported Media Type"
  | 416 => "Requested Range Not Satisfiable"
  | 417 => "Expectation Failed"
  | 418 => "I\x27m a teapot"
  | 421 => "Misdirected Request"
  | 422 => "Unprocessable Entity"
  | 423 => "Locked"
  | 424 => "Failed Dependency"
  | 425 => "Too Early"
  | 426 => "Upgrade Required"
  | 428 => "Precondition Required"
  | 429 => "Too Many Requests"
  | 431 => "Request Header Fields Too Large"
  | 451 => "Unavailable For Legal Reasons"
  | 500 => "Internal Server Error"
  | 501 => "Not Implemented"
  | 502 => "Bad Gateway"
  | 503 => "Service Unavailable"
  | 504 => "Gateway Timeout"
  | 505 => "HTTP Version Not Supported"
  | 506 => "Variant Also Negotiates"
  | 507 => "Insufficient Storage"
  | 508 => "Loop Detected"
  | 510 => "Not Extended"
  | 511 => "Network Authentication Required"
  | _ => ""

/-! ### Data model (internal/store/models.go) -/

/-- store.Message.  Headers are kept as the first-value-per-name association
list that the Go code marshals to JSON; timestamps are abstract integers. -/
structure Message where
  id : String := ""
  traceId : String := ""
  timestamp : Int := 0
  direction : String := ""
  fromAgent : String := ""
  toAgent : String := ""
  method : String := ""
  url : String := ""
  headers : List (String × String) := []
  body : String := ""
  durationMs : Int := 0
  statusCode : Nat := 0
  error : String := ""
  requestId : String := ""
  contentType : String := ""
  size : Int := 0
  deriving DecidableEq, Repr

/-- store.Agent row of the agents table. -/
structure AgentRow where
  id : String := ""
  url : String := ""
  name : String := ""
  description : String := ""
  version : String := ""
  skills : String := ""
  firstSeen : Int := 0
  deriving DecidableEq, Repr

/-! ### Classifier / interceptor (internal/proxy/interceptor.go) -/

/-- Interceptor.IsA2ARequest, literally transcribed: the Content-Type gate
runs first, then POST is accepted, then GET with a path containing
/.well-known/agent.json. -/
def isA2ARequest (method contentType path : String) : Bool :=
  if !(containsStr contentType "application/json") then
    false
  else if method ≠ "POST" then
    method == "GET" && containsStr path "/.well-known/agent.json"
  else
    true

/-- extractAgentFromURL: strip an http:// or https:// scheme, keep the host
part before the first slash. -/
def extractAgentFromURL (urlStr : String) : String :=
  let s1 := trimPrefixStr urlStr "http://"
  let s2 := trimPrefixStr s1 "https://"
  String.mk (s2.toList.takeWhile (· ≠ '/'))

/-- Result of json.Unmarshal of a request body into store.A2ARequest, as the
code consumes it: the extracted method, and the formatRequestID image of the
JSON-RPC id when that id was non-null. -/
structure RpcReq where
  method : String := ""
  id : Option String := none
  deriving DecidableEq, Repr

/-- The parts of an inbound http.Request that ParseRequest reads. rpc is
none when the body does not unmarshal into an A2ARequest. -/
structure ReqInfo where
  method : String := ""
  url : String := ""
  path : String := ""
  contentType : String := ""
  headers : List (String × String) := []
  body : String := ""
  rpc : Option RpcReq := none
  deriving DecidableEq, Repr

/-- Interceptor.ParseRequest: build the request Message.  The Message id is
left empty; SaveMessage assigns it. -/
def parseRequest (r : ReqInfo) (traceID : String) (now : Int) : Message :=
  let base : Message :=
    { traceId := traceID
      timestamp := now
      direction := "request"
      url := r.url
      contentType := r.contentType
      size := (r.body.utf8ByteSize : Int)
      body := r.body
      headers := r.headers
      toAgent := extractAgentFromURL r.url }
  match r.rpc with
  | none => base
  | some a => { base with method := a.method, requestId := a.id.getD "" }

/-- The parts of an upstream http.Response that ParseResponse reads.
rpcError is the JSON-RPC error message when the body unmarshals into an
A2AResponse whose Error field is non-nil. -/
structure RespInfo where
  statusCode : Nat := 0
  contentType : String := ""
  headers : List (String × String) := []
  body : String := ""
  rpcError : Option String := none
  deriving DecidableEq, Repr

/-- Interceptor.ParseResponse: build the response Message.  Note the order of
the two error assignments in the source: the JSON-RPC error message is written
first and the HTTP status text overwrites it when the status is at least
400. -/
def parseResponse (resp : RespInfo) (requestMsg : Message) (durationMs : Int)
    (now : Int) : Message :=
  let base : Message :=
    { traceId := requestMsg.traceId
      timestamp := now
      direction := "response"
      url := requestMsg.url
      fromAgent := requestMsg.toAgent
      statusCode := resp.statusCode
      contentType := resp.contentType
      size := (resp.body.utf8ByteSize : Int)
      body := resp.body
      durationMs := durationMs
      requestId := requestMsg.requestId
      headers := resp.headers }
  let withRpcErr :=
    match resp.rpcError with
    | some m => { base with error := m }
    | none => base
  if resp.statusCode ≥ 400 then
    { withRpcErr with error := statusText resp.statusCode }
  else
    withRpcErr

/-! ### Store writes (internal/store/store.go) -/

/-- Store.SaveMessage: assign a fresh identifier when the message has none,
then append the row.  fresh stands for the generated UUID. -/
def saveMessage (fresh : String) (msg : Message) (table : List Message) :
    List Message × Message :=
  let m := if msg.id = "" then { msg with id := fresh } else msg
  (table ++ [m], m)

/-- The id-assignment step shared by SaveMessage, SaveAgent and SaveInsight:
draw a fresh UUID when the incoming row has no identifier. -/
def assignAgentId (fresh : String) (a : AgentRow) : AgentRow :=
  if a.id = "" then { a with id := fresh } else a

/-- Store.SaveAgent: the INSERT .. ON CONFLICT(url) DO UPDATE upsert.  On a
url hit, only name, description, version and skills are rewritten from the
incoming row; id and first_seen stay.  Otherwise a new row (with a fresh id
when none was supplied) is appended. -/
def saveAgent (fresh : String) (a : AgentRow) (table : List AgentRow) :
    List AgentRow :=
  let a1 := assignAgentId fresh a
  if table.any (fun r => r.url == a1.url) then
    table.map (fun r =>
      if r.url == a1.url then
        { r with name := a1.name, description := a1.description,
                 version := a1.version, skills := a1.skills }
      else r)
  else
    table ++ [a1]

/-! ### Proxy traversal (internal/proxy/proxy.go, handleProxy) -/

/-- The successful-upstream slice of handleProxy for a captured request:
parse and save the request Message, then parse and save the response Message
built from it.  freshReq / freshResp are the UUIDs SaveMessage draws; tsReq /
tsResp the two time.Now() readings; durationMs the measured elapsed time. -/
def proxyExchangeSuccess (traceID freshReq freshResp : String)
    (tsReq tsResp : Int) (req : ReqInfo) (resp : RespInfo) (durationMs : Int)
    (table : List Message) : List Message × Message × Message :=
  let reqMsg := parseRequest req traceID tsReq
  let (table1, reqSaved) := saveMessage freshReq reqMsg table
  let respMsg := parseResponse resp reqSaved durationMs tsResp
  let (table2, respSaved) := saveMessage freshResp respMsg table1
  (table2, reqSaved, respSaved)

/-- The transport-failure slice of handleProxy (client.Do returned an error):
when a request Message was captured, synthesize and save a response Message
carrying the error text, the elapsed milliseconds and the request Message id;
the caller always receives HTTP 502. -/
def handleProxyFailure (traceID targetURL : String) (reqMsg : Option Message)
    (errText : String) (elapsedMs : Int) (now : Int) (fresh : String)
    (table : List Message) : List Message × Option Message × Nat :=
  match reqMsg with
  | some rm =>
      let errMsg : Message :=
        { traceId := traceID
          timestamp := now
          direction := "response"
          url := targetURL
          error := errText
          durationMs := elapsedMs
          requestId := rm.id }
      let (table1, saved) := saveMessage fresh errMsg table
      (table1, some saved, 502)
  | none => (table, none, 502)

/-! ### Child environment (internal/process/manager.go, buildEnv) -/

/-- The proxy URL string fmt.Sprintf builds from the port. -/
def proxyURLFor (port : Nat) : String :=
  "http://127.0.0.1:" ++ toString port

/-- The proxyVars map of buildEnv, as an association list (the Go map has no
deterministic iteration order; the claims below only concern membership). -/
def proxyVars (port : Nat) : List (String × String) :=
  [ ("HTTP_PROXY", proxyURLFor port)
  , ("http_proxy", proxyURLFor port)
  , ("HTTPS_PROXY", proxyURLFor port)
  , ("https_proxy", proxyURLFor port)
  , ("NO_PROXY", "")
  , ("no_proxy", "")
  , ("A2A_PROXY", proxyURLFor port)
  , ("A2A_TRACE", "1")
  , ("A2A_TRACE_UI", proxyURLFor port ++ "/ui") ]

/-- Manager.buildEnv: keep the inherited entries whose key is not one of the
proxyVars keys, then append every KEY=VALUE pair of proxyVars. -/
def buildEnv (env : List String) (port : Nat) : List String :=
  env.filter (fun e => !((proxyVars port).any (fun kv => kv.1 == envKey e)))
    ++ (proxyVars port).map (fun kv => kv.1 ++ "=" ++ kv.2)

/-! ### Analyzer (internal/analyzer/analyzer.go) -/

/-- Insight details: the Go field is a string; the analyzer fills it either
with the JSON serialization of a key-value map (formatDetails) or with a
plain "; "-joined text (protocol violations).  The map case is modelled
before serialization, as the association list handed to json.MarshalIndent. -/
inductive Details where
  | obj : List (String × String) → Details
  | text : String → Details
  deriving DecidableEq, Repr

/-- store.Insight.  The generated UUID and the time.Now() stamp are
nondeterministic and carry no information for the properties below, so they
are omitted from the model.  itype stands for the Type field. -/
structure Insight where
  traceId : String := ""
  messageId : String := ""
  itype : String := ""
  category : String := ""
  title : String := ""
  details : Details := .text ""
  deriving DecidableEq, Repr

/-- What the analyzer extracts from a response body: the generic JSON-object
unmarshal used by checkProtocolViolation (key presence) and the A2AResponse
unmarshal used by formatErrorDetails (error code and message when the Error
field is non-nil).  isObj is false when the unmarshal into a map fails. -/
structure BodyInfo where
  isObj : Bool := false
  hasJsonrpc : Bool := false
  hasId : Bool := false
  hasResult : Bool := false
  rpcErr : Option (Int × String) := none
  deriving DecidableEq, Repr

/-- The configuration part of the Analyzer struct (trace id and slow
threshold in milliseconds). -/
structure AConfig where
  traceId : String := ""
  slowThresholdMs : Int := 1000
  deriving DecidableEq, Repr

/-- analyzer.New: a zero threshold falls back to one second. -/
def newSlowThresholdMs (cfgMs : Int) : Int :=
  if cfgMs = 0 then 1000 else cfgMs

/-- The mutable maps of the Analyzer struct; Go map misses read as zero
values. -/
structure AState where
  requestTimes : String → Option Int
  methodCounts : String → Nat
  agentErrors : String → Nat

/-- The maps as analyzer.New allocates them: empty. -/
def initialAState : AState :=
  { requestTimes := fun _ => none
    methodCounts := fun _ => 0
    agentErrors := fun _ => 0 }

/-- Increment one key of a Go counter map. -/
def bumpCount (f : String → Nat) (k : String) : String → Nat :=
  fun x => if x = k then f x + 1 else f x

/-- formatSlowResponseDetails. -/
def formatSlowResponseDetails (msg : Message) : Details :=
  .obj
    [ ("duration_ms", toString msg.durationMs)
    , ("url", msg.url)
    , ("method", msg.method)
    , ("suggestion",
        "Consider adding timeout handling or investigating agent performance") ]

/-- formatErrorTitle: the source renders the status code through
string(rune(code)), a single character cast; Char.ofNat agrees with the Go
rune conversion on every valid scalar value, which covers all HTTP status
codes. -/
def formatErrorTitle (msg : Message) : String :=
  if msg.statusCode ≥ 400 then
    "HTTP Error " ++ String.singleton (Char.ofNat msg.statusCode)
  else
    "A2A Error Response"

/-- formatErrorDetails: the base map plus error_code / error_message when a
non-empty body carries a JSON-RPC error. -/
def formatErrorDetails (msg : Message) (bi : BodyInfo) : Details :=
  let base :=
    [ ("status_code", toString msg.statusCode)
    , ("error", msg.error)
    , ("url", msg.url)
    , ("method", msg.method) ]
  match (if msg.body ≠ "" then bi.rpcErr else none) with
  | some cm => .obj (base ++ [("error_code", toString cm.1), ("error_message", cm.2)])
  | none => .obj base

/-- formatRetryLoopDetails. -/
def formatRetryLoopDetails (method : String) (count : Nat) : Details :=
  .obj
    [ ("method", method)
    , ("call_count", toString count)
    , ("suggestion", "Check for proper error handling and backoff logic") ]

/-- Analyzer.checkSlowResponse: nil unless the duration strictly exceeds the
threshold. -/
def checkSlowResponse (cfg : AConfig) (msg : Message) : Option Insight :=
  if msg.durationMs ≤ cfg.slowThresholdMs then
    none
  else
    some
      { traceId := cfg.traceId
        messageId := msg.id
        itype := "warning"
        category := "slow_response"
        title := "Slow Response Detected"
        details := formatSlowResponseDetails msg }

/-- Analyzer.checkError: fires when the error text is non-empty or the status
is at least 400; bumps the per-agent error counter as a side effect; severity
warning for 4xx, error otherwise. -/
def checkError (cfg : AConfig) (st : AState) (msg : Message) (bi : BodyInfo) :
    AState × Option Insight :=
  if msg.error = "" ∧ msg.statusCode < 400 then
    (st, none)
  else
    let st1 := { st with agentErrors := bumpCount st.agentErrors msg.fromAgent }
    let itype := if msg.statusCode ≥ 400 ∧ msg.statusCode < 500 then "warning" else "error"
    (st1,
      some
        { traceId := cfg.traceId
          messageId := msg.id
          itype := itype
          category := "error"
          title := formatErrorTitle msg
          details := formatErrorDetails msg bi })

/-- Analyzer.checkProtocolViolation: on a non-empty body that unmarshals as a
JSON object, a missing jsonrpc key is a violation, and a missing id key is
one for a 2xx response that carries a result. -/
def checkProtocolViolation (cfg : AConfig) (msg : Message) (bi : BodyInfo) :
    Option Insight :=
  let violations : List String :=
    if msg.body ≠ "" ∧ bi.isObj = true then
      (if bi.hasJsonrpc then [] else ["Missing \x27jsonrpc\x27 field"]) ++
      (if bi.hasId then []
       else if 200 ≤ msg.statusCode ∧ msg.statusCode < 300 ∧ bi.hasResult = true then
         ["Missing \x27id\x27 field in response"]
       else [])
    else []
  if violations = [] then
    none
  else
    some
      { traceId := cfg.traceId
        messageId := msg.id
        itype := "warning"
        category := "protocol_violation"
        title := "A2A Protocol Violation"
        details := .text (String.intercalate "; " violations) }

/-- Analyzer.checkRetryLoop: with a non-empty method, fires whenever the
current per-method counter is a positive multiple of five. -/
def checkRetryLoop (cfg : AConfig) (st : AState) (msg : Message) :
    Option Insight :=
  if msg.method = "" then
    none
  else
    let count := st.methodCounts msg.method
    if 0 < count ∧ count % 5 = 0 then
      some
        { traceId := cfg.traceId
          messageId := msg.id
          itype := "warning"
          category := "retry_loop"
          title := "Potential Retry Loop Detected"
          details := formatRetryLoopDetails msg.method count }
    else
      none

/-- Analyzer.AnalyzeMessage: requests record their timestamp and bump the
method counter; responses run the slow / error / protocol checks; every
message then runs the retry-loop check.  Returns the updated maps and the
insights in emission order. -/
def analyzeMessage (cfg : AConfig) (st : AState) (msg : Message)
    (bi : BodyInfo) : AState × List Insight :=
  let st1 :=
    if msg.direction = "request" then
      { st with
          requestTimes := fun x =>
            if x = msg.id then some msg.timestamp else st.requestTimes x
          methodCounts := bumpCount st.methodCounts msg.method }
    else st
  if msg.direction = "response" then
    let st2 := (checkError cfg st1 msg bi).1
    (st2,
      (checkSlowResponse cfg msg).toList ++
        (checkError cfg st1 msg bi).2.toList ++
        (checkProtocolViolation cfg msg bi).toList ++
        (checkRetryLoop cfg st2 msg).toList)
  else
    (st1, (checkRetryLoop cfg st1 msg).toList)

/-- Feed a whole trace through AnalyzeMessage, collecting the insight list of
every step in order. -/
def analyzeTrace (cfg : AConfig) : AState → List (Message × BodyInfo) →
    List (List Insight)
  | _, [] => []
  | st, mb :: rest =>
      let (st1, ins) := analyzeMessage cfg st mb.1 mb.2
      ins :: analyzeTrace cfg st1 rest

/-- One iteration of the statistics loop of Analyzer.GetSummary over the
accumulator (totalDuration, errorCount, successCount): responses add their
duration and are classified error (non-empty error text or status at least
400) or success; requests change nothing. -/
def summaryStep (acc : Int × Nat × Nat) (msg : Message) : Int × Nat × Nat :=
  if msg.direction = "response" then
    if msg.error ≠ "" ∨ msg.statusCode ≥ 400 then
      (acc.1 + msg.durationMs, acc.2.1 + 1, acc.2.2)
    else
      (acc.1 + msg.durationMs, acc.2.1, acc.2.2 + 1)
  else acc

/-- The statistics loop of Analyzer.GetSummary: total duration, error count
and success count, accumulated over response messages only. -/
def summaryFold (msgs : List Message) : Int × Nat × Nat :=
  msgs.foldl summaryStep (0, 0, 0)

/-- The avg_duration_ms entry of GetSummary: total duration over
success+error count, with Go int64 division (truncation toward zero), zero
when there was no response. -/
def avgDurationMs (msgs : List Message) : Int :=
  let acc := summaryFold msgs
  let responseCount := acc.2.2 + acc.2.1
  if 0 < responseCount then Int.tdiv acc.1 responseCount else 0

/-! ### Claim-side definitions (transcribed from the wording of the spec,
for the claims whose statement must be compared against the code) -/

/-- Ends-with on strings, expressed through list suffixes. -/
def endsWithStr (s suf : String) : Bool :=
  decide (suf.toList <:+ s.toList)

/-- The C2 classification rule as the spec words it: POST with a JSON
content type, or GET with a path that ENDS in /.well-known/agent.json,
with no content-type condition on the GET arm. -/
def specIsA2A (method contentType path : String) : Prop :=
  (method = "POST" ∧ containsStr contentType "application/json" = true) ∨
  (method = "GET" ∧ endsWithStr path "/.well-known/agent.json" = true)

instance (method contentType path : String) :
    Decidable (specIsA2A method contentType path) := by
  unfold specIsA2A; infer_instance

/-! ### Theorems -/

/-- C2, counterexample: the classifier is NOT the spec rule.  A GET to
/.well-known/agent.json with an empty Content-Type is A2A under the spec
rule but is rejected by IsA2ARequest, whose content-type gate runs first. -/
theorem c2_counterexample :
    ¬ (isA2ARequest "GET" "" "/.well-known/agent.json" = true ↔
        specIsA2A "GET" "" "/.well-known/agent.json") := by
  decide

/-- C2 (amended): the classifier judges a request A2A if and only if its
Content-Type contains application/json AND (its method is POST, or its
method is GET and its path CONTAINS /.well-known/agent.json).  In
particular a GET to the agent-card path without a JSON content type is not
classified A2A. -/
theorem c2_isA2ARequest_characterization (method contentType path : String) :
    isA2ARequest method contentType path = true ↔
      (containsStr contentType "application/json" = true ∧
        (method = "POST" ∨
          (method = "GET" ∧ containsStr path "/.well-known/agent.json" = true))) := by
  unfold isA2ARequest
  by_cases hct : containsStr contentType "application/json" <;>
    by_cases hp : method = "POST" <;>
      simp [hct, hp]

/-- C9: on a response with HTTP status 404 the error-insight title produced
by checkError is the character cast "HTTP Error " followed by the single
code point U+0194, not the decimal rendering "HTTP Error 404". -/
theorem c9_error_title_char_cast :
    (((checkError { traceId := "t", slowThresholdMs := 1000 } initialAState
          { id := "m1", direction := "response", statusCode := 404,
            error := "Not Found", url := "http://a/x" }
          {}).2.map Insight.title) =
        some ("HTTP Error " ++ String.singleton (Char.ofNat 404))) ∧
    (((checkError { traceId := "t", slowThresholdMs := 1000 } initialAState
          { id := "m1", direction := "response", statusCode := 404,
            error := "Not Found", url := "http://a/x" }
          {}).2.map Insight.title) ≠ some "HTTP Error 404") := by
  constructor
  · rfl
  · decide

/-- C1: on the successful-upstream path the persisted request Message gets
the store-assigned identifier r1, but its own correlation identifier is the
JSON-RPC-derived request id (empty here, the body being non-JSON), and the
persisted response Message carries that same JSON-RPC-derived value rather
than the request Message identifier — both halves of the claimed invariant
fail at this input. -/
theorem c1_success_path_correlation_mismatch :
    (proxyExchangeSuccess "t" "r1" "r2" 10 20
        { method := "POST", url := "http://agent-a.local/rpc", path := "/rpc",
          contentType := "application/json", body := "hello", rpc := none }
        { statusCode := 200, contentType := "application/json",
          body := "{}", rpcError := none }
        40 []).2.1.id = "r1" ∧
    (proxyExchangeSuccess "t" "r1" "r2" 10 20
        { method := "POST", url := "http://agent-a.local/rpc", path := "/rpc",
          contentType := "application/json", body := "hello", rpc := none }
        { statusCode := 200, contentType := "application/json",
          body := "{}", rpcError := none }
        40 []).2.2.requestId = "" ∧
    (proxyExchangeSuccess "t" "r1" "r2" 10 20
        { method := "POST", url := "http://agent-a.local/rpc", path := "/rpc",
          contentType := "application/json", body := "hello", rpc := none }
        { statusCode := 200, contentType := "application/json",
          body := "{}", rpcError := none }
        40 []).2.2.requestId ≠ "r1" ∧
    (proxyExchangeSuccess "t" "r1" "r2" 10 20
        { method := "POST", url := "http://agent-a.local/rpc", path := "/rpc",
          contentType := "application/json", body := "hello", rpc := none }
        { statusCode := 200, contentType := "application/json",
          body := "{}", rpcError := none }
        40 []).2.1.requestId ≠ "r1" := by
  refine ⟨rfl, rfl, ?_, ?_⟩ <;> decide

/-- C3, counterexample: with HTTP status 404 and a body carrying the
JSON-RPC error message boom, ParseResponse records the HTTP status text,
not the JSON-RPC message — the HTTP text, not the JSON-RPC error, takes
precedence. -/
theorem c3_counterexample :
    (parseResponse
        { statusCode := 404, contentType := "application/json",
          body := "x", rpcError := some "boom" }
        { id := "r1", traceId := "t", direction := "request",
          url := "http://a/x", toAgent := "a", requestId := "7" }
        5 2).error = "Not Found" ∧
    (parseResponse
        { statusCode := 404, contentType := "application/json",
          body := "x", rpcError := some "boom" }
        { id := "r1", traceId := "t", direction := "request",
          url := "http://a/x", toAgent := "a", requestId := "7" }
        5 2).error ≠ "boom" := by
  constructor
  · rfl
  · decide

/-- C3 (amended): when the HTTP status is at least 400 the response Message
error text is the HTTP status text, overriding any JSON-RPC error in the
body (HTTP text takes precedence); below 400 the error text is the JSON-RPC
error message when one is present and empty otherwise. -/
theorem c3_parseResponse_error_precedence (resp : RespInfo)
    (requestMsg : Message) (d t : Int) :
    (resp.statusCode ≥ 400 →
      (parseResponse resp requestMsg d t).error = statusText resp.statusCode) ∧
    (resp.statusCode < 400 →
      (parseResponse resp requestMsg d t).error = resp.rpcError.getD "") := by
  constructor
  · intro h
    unfold parseResponse
    cases hre : resp.rpcError <;> simp [hre, h]
  · intro h
    have h4 : ¬ resp.statusCode ≥ 400 := by omega
    unfold parseResponse
    cases hre : resp.rpcError <;> simp [hre, h4]

/-- C3 witness: the amended precedence evaluated concretely, once on a 404
with a JSON-RPC error in the body and once on a 200 with one. -/
theorem c3_witness :
    ((400 : Nat) ≥ 400 ∧
      (parseResponse { statusCode := 400, rpcError := some "boom" }
          { id := "r1" } 5 2).error = statusText 400) ∧
    ((200 : Nat) < 400 ∧
      (parseResponse { statusCode := 200, rpcError := some "boom" }
          { id := "r1" } 5 2).error = (some "boom").getD "") :=
  ⟨⟨by decide,
    (c3_parseResponse_error_precedence { statusCode := 400, rpcError := some "boom" }
        { id := "r1" } 5 2).1 (by decide)⟩,
   ⟨by decide,
    (c3_parseResponse_error_precedence { statusCode := 200, rpcError := some "boom" }
        { id := "r1" } 5 2).2 (by decide)⟩⟩

/-- C4: on a transport failure with a captured request Message, the proxy
persists and publishes a synthetic response Message with zero (empty) HTTP
status, the transport error as its non-empty error text, the measured
elapsed milliseconds as its duration and the request Message identifier as
its correlation id, and the caller receives HTTP 502. -/
theorem c4_handleProxyFailure_spec (traceID targetURL errText fresh : String)
    (rm : Message) (elapsedMs now : Int) (table : List Message)
    (h : errText ≠ "") :
    ∃ saved,
      (handleProxyFailure traceID targetURL (some rm) errText elapsedMs now
          fresh table).2.1 = some saved ∧
      saved.statusCode = 0 ∧
      saved.error = errText ∧ saved.error ≠ "" ∧
      saved.durationMs = elapsedMs ∧
      saved.requestId = rm.id ∧
      saved.direction = "response" ∧
      (handleProxyFailure traceID targetURL (some rm) errText elapsedMs now
          fresh table).2.2 = 502 ∧
      (handleProxyFailure traceID targetURL (some rm) errText elapsedMs now
          fresh table).1 = table ++ [saved] := by
  refine ⟨{ id := fresh, traceId := traceID, timestamp := now,
            direction := "response", url := targetURL, error := errText,
            durationMs := elapsedMs, requestId := rm.id }, ?_⟩
  unfold handleProxyFailure saveMessage
  simp [h]

/-- C4 witness: the failure-path theorem applied at a concrete refused
connection. -/
theorem c4_witness :
    ∃ saved,
      (handleProxyFailure "t" "http://a/x" (some { id := "q1" })
          "connect: connection refused" 7 9 "m2" []).2.1 = some saved ∧
      saved.statusCode = 0 ∧
      saved.error = "connect: connection refused" ∧ saved.error ≠ "" ∧
      saved.durationMs = 7 ∧
      saved.requestId = Message.id { id := "q1" } ∧
      saved.direction = "response" ∧
      (handleProxyFailure "t" "http://a/x" (some { id := "q1" })
          "connect: connection refused" 7 9 "m2" []).2.2 = 502 ∧
      (handleProxyFailure "t" "http://a/x" (some { id := "q1" })
          "connect: connection refused" 7 9 "m2" []).1 = [] ++ [saved] :=
  c4_handleProxyFailure_spec "t" "http://a/x" "connect: connection refused"
    "m2" { id := "q1" } 7 9 [] (by decide)

/-- C8: for any parent environment and port, the child environment contains
all four proxy variables pointing at the local proxy, cleared NO_PROXY and
no_proxy, and the three advisory A2A variables; and every entry of the child
environment whose key is one of the proxyVars keys is one of the injected
KEY=VALUE strings, so no inherited entry with such a key survives. -/
theorem c8_buildEnv_spec (env : List String) (port : Nat) :
    ("HTTP_PROXY" ++ "=" ++ proxyURLFor port) ∈ buildEnv env port ∧
    ("http_proxy" ++ "=" ++ proxyURLFor port) ∈ buildEnv env port ∧
    ("HTTPS_PROXY" ++ "=" ++ proxyURLFor port) ∈ buildEnv env port ∧
    ("https_proxy" ++ "=" ++ proxyURLFor port) ∈ buildEnv env port ∧
    ("NO_PROXY" ++ "=" ++ "") ∈ buildEnv env port ∧
    ("no_proxy" ++ "=" ++ "") ∈ buildEnv env port ∧
    ("A2A_PROXY" ++ "=" ++ proxyURLFor port) ∈ buildEnv env port ∧
    ("A2A_TRACE" ++ "=" ++ "1") ∈ buildEnv env port ∧
    ("A2A_TRACE_UI" ++ "=" ++ (proxyURLFor port ++ "/ui")) ∈ buildEnv env port ∧
    (∀ e, e ∈ buildEnv env port →
      envKey e ∈ (proxyVars port).map Prod.fst →
      e ∈ (proxyVars port).map (fun kv => kv.1 ++ "=" ++ kv.2)) := by
  have hinj : ∀ kv ∈ proxyVars port,
      (kv.1 ++ "=" ++ kv.2) ∈ buildEnv env port := by
    intro kv hkv
    exact List.mem_append_right _ (List.mem_map_of_mem _ hkv)
  refine ⟨hinj ("HTTP_PROXY", proxyURLFor port) (by simp [proxyVars]),
    hinj ("http_proxy", proxyURLFor port) (by simp [proxyVars]),
    hinj ("HTTPS_PROXY", proxyURLFor port) (by simp [proxyVars]),
    hinj ("https_proxy", proxyURLFor port) (by simp [proxyVars]),
    hinj ("NO_PROXY", "") (by simp [proxyVars]),
    hinj ("no_proxy", "") (by simp [proxyVars]),
    hinj ("A2A_PROXY", proxyURLFor port) (by simp [proxyVars]),
    hinj ("A2A_TRACE", "1") (by simp [proxyVars]),
    hinj ("A2A_TRACE_UI", proxyURLFor port ++ "/ui") (by simp [proxyVars]), ?_⟩
  intro e he hk
  rcases List.mem_append.mp he with hf | hi
  · exfalso
    have hp := (List.mem_filter.mp hf).2
    rcases List.mem_map.mp hk with ⟨kv, hkv, hkey⟩
    have : (proxyVars port).any (fun kv => kv.1 == envKey e) = true :=
      List.any_eq_true.mpr ⟨kv, hkv, by simp [hkey]⟩
    simp [this] at hp
  · exact hi

/-- C8 witness: the buildEnv contract evaluated on a parent environment that
carries a conflicting inherited HTTP_PROXY. -/
theorem c8_witness :
    ("HTTP_PROXY" ++ "=" ++ proxyURLFor 8080) ∈
      buildEnv ["HTTP_PROXY=http://other:1", "PATH=/bin"] 8080 ∧
    ("HTTP_PROXY" ++ "=" ++ proxyURLFor 8080) ∈
      (proxyVars 8080).map (fun kv => kv.1 ++ "=" ++ kv.2) :=
  ⟨(c8_buildEnv_spec ["HTTP_PROXY=http://other:1", "PATH=/bin"] 8080).1,
   (c8_buildEnv_spec ["HTTP_PROXY=http://other:1", "PATH=/bin"] 8080).2.2.2.2.2.2.2.2.2
     ("HTTP_PROXY" ++ "=" ++ proxyURLFor 8080)
     (c8_buildEnv_spec ["HTTP_PROXY=http://other:1", "PATH=/bin"] 8080).1
     (by decide)⟩

/-- Two rows of a url-unique table with the same url are the same row. -/
lemma mem_unique_url {x y : AgentRow} :
    ∀ {table : List AgentRow},
      table.Pairwise (fun u v => u.url ≠ v.url) →
      x ∈ table → y ∈ table → x.url = y.url → x = y := by
  intro table
  induction table with
  | nil => intro _ hx _ _; cases hx
  | cons hd t ih =>
    intro huniq hx hy hxy
    rcases List.pairwise_cons.mp huniq with ⟨hhead, htail⟩
    rcases List.mem_cons.mp hx with hx1 | hx2
    · rcases List.mem_cons.mp hy with hy1 | hy2
      · rw [hx1, hy1]
      · exfalso
        apply hhead y hy2
        rw [← hx1]
        exact hxy
    · rcases List.mem_cons.mp hy with hy1 | hy2
      · exfalso
        apply hhead x hx2
        rw [← hy1]
        exact hxy.symm
      · exact ih htail hx2 hy2 hxy

/-- The id-assignment step of SaveAgent touches only the id field. -/
lemma assignAgentId_fields (fresh : String) (a : AgentRow) :
    (assignAgentId fresh a).url = a.url ∧
    (assignAgentId fresh a).name = a.name ∧
    (assignAgentId fresh a).description = a.description ∧
    (assignAgentId fresh a).version = a.version ∧
    (assignAgentId fresh a).skills = a.skills := by
  unfold assignAgentId
  refine ⟨?_, ?_, ?_, ?_, ?_⟩ <;> (split <;> rfl)

/-- C10: saving an Agent whose URL already sits in a url-unique table keeps
the table length (no second row for that URL), keeps every row with a
different URL untouched, and rewrites the matching row so that its name,
description, version and skills come from the new agent while its id and
first_seen are those of the old row. -/
theorem c10_saveAgent_upsert (fresh : String) (a : AgentRow)
    (table : List AgentRow) (r0 : AgentRow) (hmem : r0 ∈ table)
    (hurl : r0.url = a.url)
    (huniq : table.Pairwise (fun x y => x.url ≠ y.url)) :
    (saveAgent fresh a table).length = table.length ∧
    ({ r0 with name := a.name, description := a.description,
               version := a.version, skills := a.skills } ∈
        saveAgent fresh a table) ∧
    (∀ r ∈ table, r.url ≠ a.url → r ∈ saveAgent fresh a table) ∧
    (∀ r ∈ saveAgent fresh a table, r.url = a.url →
      r.id = r0.id ∧ r.firstSeen = r0.firstSeen ∧ r.name = a.name ∧
      r.description = a.description ∧ r.version = a.version ∧
      r.skills = a.skills) := by
  obtain ⟨hu, hn, hd, hv, hs⟩ := assignAgentId_fields fresh a
  have hany : table.any
      (fun r => r.url == (assignAgentId fresh a).url) = true := by
    refine List.any_eq_true.mpr ⟨r0, hmem, ?_⟩
    rw [hu]
    exact beq_iff_eq.mpr hurl
  have hform : saveAgent fresh a table =
      table.map (fun r =>
        if r.url = a.url then
          { r with name := a.name, description := a.description,
                   version := a.version, skills := a.skills }
        else r) := by
    simp only [saveAgent]
    rw [hany]
    simp only [if_true]
    apply List.map_congr_left
    intro r _
    rw [hu, hn, hd, hv, hs]
    by_cases hr : r.url = a.url
    · simp [hr]
    · simp [hr]
  rw [hform]
  refine ⟨List.length_map _ _, ?_, ?_, ?_⟩
  · have := List.mem_map_of_mem (f := fun r =>
      if r.url = a.url then
        { r with name := a.name, description := a.description,
                 version := a.version, skills := a.skills }
      else r) hmem
    simpa [hurl] using this
  · intro r hr hne
    have := List.mem_map_of_mem (f := fun r =>
      if r.url = a.url then
        { r with name := a.name, description := a.description,
                 version := a.version, skills := a.skills }
      else r) hr
    simpa [hne] using this
  · intro r hr hrurl
    rcases List.mem_map.mp hr with ⟨r1, hr1, hr1eq⟩
    by_cases h1 : r1.url = a.url
    · have hr1r0 : r1 = r0 := mem_unique_url huniq hr1 hmem (h1.trans hurl.symm)
      subst hr1r0
      rw [if_pos h1] at hr1eq
      subst hr1eq
      exact ⟨rfl, rfl, rfl, rfl, rfl, rfl⟩
    · rw [if_neg h1] at hr1eq
      subst hr1eq
      exact absurd hrurl h1

/-- C10 witness: the upsert contract evaluated on a two-row table where the
first row shares the incoming URL. -/
theorem c10_witness :
    (saveAgent "f1"
        { url := "http://a", name := "new", description := "nd",
          version := "2", skills := "[s2]" }
        [ { id := "i1", url := "http://a", name := "old", description := "od",
            version := "1", skills := "[s1]", firstSeen := 3 }
        , { id := "i2", url := "http://b", firstSeen := 4 } ]).length = 2 ∧
    ({ id := "i1", url := "http://a", name := "new", description := "nd",
       version := "2", skills := "[s2]", firstSeen := 3 } : AgentRow) ∈
      saveAgent "f1"
        { url := "http://a", name := "new", description := "nd",
          version := "2", skills := "[s2]" }
        [ { id := "i1", url := "http://a", name := "old", description := "od",
            version := "1", skills := "[s1]", firstSeen := 3 }
        , { id := "i2", url := "http://b", firstSeen := 4 } ] := by
  have h := c10_saveAgent_upsert "f1"
    { url := "http://a", name := "new", description := "nd",
      version := "2", skills := "[s2]" }
    [ { id := "i1", url := "http://a", name := "old", description := "od",
        version := "1", skills := "[s1]", firstSeen := 3 }
    , { id := "i2", url := "http://b", firstSeen := 4 } ]
    { id := "i1", url := "http://a", name := "old", description := "od",
      version := "1", skills := "[s1]", firstSeen := 3 }
    (by decide) (by decide) (by decide)
  exact ⟨h.1, h.2.1⟩

/-! ### C7: the summary average -/

/-- A message the summary loop looks at: a response. -/
def isResponseRow (m : Message) : Bool :=
  m.direction == "response"

/-- The error branch condition of the summary loop. -/
def errRowCond (m : Message) : Bool :=
  decide (m.error ≠ "" ∨ m.statusCode ≥ 400)

/-- A response the summary counts as an error. -/
def isErrorRow (m : Message) : Bool :=
  isResponseRow m && errRowCond m

/-- A response the summary counts as a success. -/
def isSuccessRow (m : Message) : Bool :=
  isResponseRow m && !errRowCond m

/-- The summary loop, characterized against filter / countP on the message
list, for any starting accumulator. -/
lemma summaryFold_go (msgs : List Message) : ∀ acc : Int × Nat × Nat,
    msgs.foldl summaryStep acc =
      (acc.1 + ((msgs.filter isResponseRow).map Message.durationMs).sum,
       acc.2.1 + msgs.countP isErrorRow,
       acc.2.2 + msgs.countP isSuccessRow) := by
  induction msgs with
  | nil => intro acc; simp
  | cons m rest ih =>
    intro acc
    rw [List.foldl_cons, ih]
    by_cases hdir : m.direction = "response" <;>
      by_cases herr : m.error ≠ "" ∨ m.statusCode ≥ 400 <;>
        simp [summaryStep, isResponseRow, isErrorRow, isSuccessRow, errRowCond,
          hdir, herr, List.filter_cons, List.countP_cons, Prod.ext_iff] <;>
        omega

/-- Error rows and success rows partition the responses. -/
lemma countP_err_succ (msgs : List Message) :
    msgs.countP isErrorRow + msgs.countP isSuccessRow =
      (msgs.filter isResponseRow).length := by
  induction msgs with
  | nil => simp
  | cons m rest ih =>
    by_cases hdir : isResponseRow m <;>
      by_cases herr : errRowCond m <;>
        simp [isErrorRow, isSuccessRow, hdir, herr, List.filter_cons,
          List.countP_cons] <;>
        omega

/-- C7: the avg_duration_ms entry of GetSummary is the sum of the durations
of the response Messages, divided (Go integer division) by the number of
response Messages, and zero when the trace has no response; request Messages
enter neither the numerator nor the denominator. -/
theorem c7_avgDurationMs_spec (msgs : List Message) :
    avgDurationMs msgs =
      (if 0 < (msgs.filter isResponseRow).length then
        Int.tdiv (((msgs.filter isResponseRow).map Message.durationMs).sum)
          ((msgs.filter isResponseRow).length : Int)
      else 0) := by
  have hc : msgs.countP isSuccessRow + msgs.countP isErrorRow =
      (msgs.filter isResponseRow).length := by
    rw [Nat.add_comm]
    exact countP_err_succ msgs
  unfold avgDurationMs summaryFold
  rw [summaryFold_go]
  simp only [zero_add]
  rw [hc]

/-! ### C6: the slow-response rule -/

/-- Every insight checkError can emit has category error. -/
lemma checkError_category (cfg : AConfig) (st : AState) (msg : Message)
    (bi : BodyInfo) :
    ∀ i ∈ (checkError cfg st msg bi).2.toList, i.category = "error" := by
  intro i hi
  rw [Option.mem_toList, Option.mem_def] at hi
  simp only [checkError] at hi
  split at hi <;> simp_all
  exact hi ▸ rfl

/-- Every insight checkProtocolViolation can emit has category
protocol_violation. -/
lemma checkProtocolViolation_category (cfg : AConfig) (msg : Message)
    (bi : BodyInfo) :
    ∀ i ∈ (checkProtocolViolation cfg msg bi).toList,
      i.category = "protocol_violation" := by
  intro i hi
  rw [Option.mem_toList, Option.mem_def] at hi
  simp only [checkProtocolViolation] at hi
  split at hi <;> simp_all
  exact hi.2 ▸ rfl

/-- Every insight checkRetryLoop can emit has category retry_loop. -/
lemma checkRetryLoop_category (cfg : AConfig) (st : AState) (msg : Message) :
    ∀ i ∈ (checkRetryLoop cfg st msg).toList, i.category = "retry_loop" := by
  intro i hi
  rw [Option.mem_toList, Option.mem_def] at hi
  simp only [checkRetryLoop] at hi
  split at hi <;> simp_all
  exact hi.2 ▸ rfl

/-- C6, counterexample: a response of exactly 1000 ms under the default
threshold draws no slow_response insight, although the claimed rule
(duration at least the 1000 ms default) demands exactly one. -/
theorem c6_counterexample :
    (1000 : Int) ≥ 1000 ∧
    ((analyzeMessage { traceId := "t", slowThresholdMs := newSlowThresholdMs 0 }
        initialAState
        { id := "m1", direction := "response", durationMs := 1000,
          url := "http://a/x", method := "tasks/send" }
        {}).2.countP (fun i => i.category == "slow_response")) = 0 := by
  exact ⟨by decide, by rfl⟩

/-- C6 (amended): with the default threshold, a response Message draws
exactly one slow_response insight — severity warning, the fixed title, and
details carrying duration, url, method and a suggestion — when its duration
STRICTLY exceeds 1,000 ms, and none when the duration is at most 1,000 ms. -/
theorem c6_slow_insight (tid : String) (st : AState) (msg : Message)
    (bi : BodyInfo) (hdir : msg.direction = "response") :
    (analyzeMessage { traceId := tid, slowThresholdMs := newSlowThresholdMs 0 }
        st msg bi).2.filter (fun i => i.category == "slow_response") =
      (if 1000 < msg.durationMs then
        [{ traceId := tid, messageId := msg.id, itype := "warning",
           category := "slow_response", title := "Slow Response Detected",
           details := Details.obj
             [ ("duration_ms", toString msg.durationMs)
             , ("url", msg.url)
             , ("method", msg.method)
             , ("suggestion",
                 "Consider adding timeout handling or investigating agent performance") ] }]
       else []) := by
  have hreq : ¬ msg.direction = "request" := by
    rw [hdir]; decide
  unfold analyzeMessage
  rw [if_neg hreq, if_pos hdir]
  simp only []
  rw [List.filter_append, List.filter_append, List.filter_append]
  have herr : ((checkError { traceId := tid, slowThresholdMs := newSlowThresholdMs 0 }
      st msg bi).2.toList.filter (fun i => i.category == "slow_response")) = [] := by
    refine List.filter_eq_nil_iff.mpr ?_
    intro i hi
    have := checkError_category _ _ _ _ i hi
    simp [this]
  have hproto : ((checkProtocolViolation { traceId := tid, slowThresholdMs := newSlowThresholdMs 0 }
      msg bi).toList.filter (fun i => i.category == "slow_response")) = [] := by
    refine List.filter_eq_nil_iff.mpr ?_
    intro i hi
    have := checkProtocolViolation_category _ _ _ i hi
    simp [this]
  have hretry : ∀ st2, ((checkRetryLoop { traceId := tid, slowThresholdMs := newSlowThresholdMs 0 }
      st2 msg).toList.filter (fun i => i.category == "slow_response")) = [] := by
    intro st2
    refine List.filter_eq_nil_iff.mpr ?_
    intro i hi
    have := checkRetryLoop_category _ _ _ i hi
    simp [this]
  rw [herr, hproto, hretry]
  simp only [List.append_nil, List.nil_append]
  have hth : ({ traceId := tid, slowThresholdMs := newSlowThresholdMs 0 } :
      AConfig).slowThresholdMs = 1000 := rfl
  unfold checkSlowResponse
  rw [hth]
  by_cases hd : msg.durationMs ≤ 1000
  · rw [if_pos hd]
    have hlt : ¬ 1000 < msg.durationMs := by omega
    rw [if_neg hlt]
    rfl
  · rw [if_neg hd]
    have hlt : 1000 < msg.durationMs := by omega
    rw [if_pos hlt]
    simp [formatSlowResponseDetails]

/-- C6 witness: the amended slow-response rule evaluated on a 1500 ms
response. -/
theorem c6_witness :
    (analyzeMessage { traceId := "t", slowThresholdMs := newSlowThresholdMs 0 }
        initialAState
        { id := "m1", direction := "response", durationMs := 1500,
          url := "http://a/x", method := "tasks/send" }
        {}).2.filter (fun i => i.category == "slow_response") =
      (if 1000 < (1500 : Int) then
        [{ traceId := "t", messageId := "m1", itype := "warning",
           category := "slow_response", title := "Slow Response Detected",
           details := Details.obj
             [ ("duration_ms", toString (1500 : Int))
             , ("url", "http://a/x")
             , ("method", "tasks/send")
             , ("suggestion",
                 "Consider adding timeout handling or investigating agent performance") ] }]
       else []) :=
  c6_slow_insight "t" initialAState
    { id := "m1", direction := "response", durationMs := 1500,
      url := "http://a/x", method := "tasks/send" }
    {} rfl

/-! ### C5: the retry-loop rule -/

/-- The retry_loop category filter. -/
def isRetryLoopInsight (i : Insight) : Bool :=
  i.category == "retry_loop"

/-- Number of request Messages carrying method m in a message list. -/
def reqCountOf (m : String) (msgs : List (Message × BodyInfo)) : Nat :=
  (msgs.filter (fun mb => mb.1.direction == "request" && mb.1.method == m)).length

/-- Number of Messages carrying method m in a message list, any direction. -/
def carryCountOf (m : String) (msgs : List (Message × BodyInfo)) : Nat :=
  (msgs.filter (fun mb => mb.1.method == m)).length

/-- Every insight checkSlowResponse can emit has category slow_response. -/
lemma checkSlowResponse_category (cfg : AConfig) (msg : Message) :
    ∀ i ∈ (checkSlowResponse cfg msg).toList, i.category = "slow_response" := by
  intro i hi
  rw [Option.mem_toList, Option.mem_def] at hi
  simp only [checkSlowResponse] at hi
  split at hi <;> simp_all
  exact hi ▸ rfl

/-- checkError leaves the method counters untouched. -/
lemma checkError_methodCounts (cfg : AConfig) (st : AState) (msg : Message)
    (bi : BodyInfo) :
    (checkError cfg st msg bi).1.methodCounts = st.methodCounts := by
  unfold checkError
  split <;> rfl

/-- The method counters after one AnalyzeMessage step: bumped at the message
method for a request, unchanged otherwise. -/
lemma analyzeMessage_methodCounts (cfg : AConfig) (st : AState) (msg : Message)
    (bi : BodyInfo) :
    (analyzeMessage cfg st msg bi).1.methodCounts =
      (if msg.direction = "request" then bumpCount st.methodCounts msg.method
       else st.methodCounts) := by
  by_cases hresp : msg.direction = "response" <;>
    by_cases hreq : msg.direction = "request"
  · exact absurd (hresp ▸ hreq) (by decide)
  · simp [analyzeMessage, hresp, hreq, checkError_methodCounts]
  · simp [analyzeMessage, hresp, hreq]
  · simp [analyzeMessage, hresp, hreq]

/-- The retry-loop slice of one AnalyzeMessage step: exactly the outcome of
checkRetryLoop on the post-step counters. -/
lemma analyzeMessage_retry_filter (cfg : AConfig) (st : AState) (msg : Message)
    (bi : BodyInfo) :
    (analyzeMessage cfg st msg bi).2.filter isRetryLoopInsight =
      (checkRetryLoop cfg (analyzeMessage cfg st msg bi).1 msg).toList := by
  have hkeep : ∀ st2, ((checkRetryLoop cfg st2 msg).toList.filter isRetryLoopInsight) =
      (checkRetryLoop cfg st2 msg).toList := by
    intro st2
    refine List.filter_eq_self.mpr ?_
    intro i hi
    have := checkRetryLoop_category cfg st2 msg i hi
    simp [isRetryLoopInsight, this]
  by_cases hresp : msg.direction = "response"
  · have hslow : ((checkSlowResponse cfg msg).toList.filter isRetryLoopInsight) = [] := by
      refine List.filter_eq_nil_iff.mpr ?_
      intro i hi
      have := checkSlowResponse_category cfg msg i hi
      simp [isRetryLoopInsight, this]
    have herr : ∀ st1, (((checkError cfg st1 msg bi).2.toList.filter isRetryLoopInsight)) = [] := by
      intro st1
      refine List.filter_eq_nil_iff.mpr ?_
      intro i hi
      have := checkError_category cfg st1 msg bi i hi
      simp [isRetryLoopInsight, this]
    have hproto : ((checkProtocolViolation cfg msg bi).toList.filter isRetryLoopInsight) = [] := by
      refine List.filter_eq_nil_iff.mpr ?_
      intro i hi
      have := checkProtocolViolation_category cfg msg bi i hi
      simp [isRetryLoopInsight, this]
    simp only [analyzeMessage, hresp, if_true, if_pos]
    rw [List.filter_append, List.filter_append, List.filter_append,
      hslow, herr, hproto, hkeep]
    simp
  · simp only [analyzeMessage, hresp, if_neg, if_false]
    rw [hkeep]

/-- checkRetryLoop spelled out as a conditional singleton. -/
lemma checkRetryLoop_toList (cfg : AConfig) (st : AState) (msg : Message) :
    (checkRetryLoop cfg st msg).toList =
      (if msg.method ≠ "" ∧ 0 < st.methodCounts msg.method ∧
          st.methodCounts msg.method % 5 = 0 then
        [{ traceId := cfg.traceId, messageId := msg.id, itype := "warning",
           category := "retry_loop", title := "Potential Retry Loop Detected",
           details := formatRetryLoopDetails msg.method (st.methodCounts msg.method) }]
       else []) := by
  simp only [checkRetryLoop]
  by_cases h1 : msg.method = ""
  · simp [h1]
  · by_cases h2 : 0 < st.methodCounts msg.method ∧ st.methodCounts msg.method % 5 = 0
    · simp [h1, h2]
    · simp [h1, h2]

/-- analyzeTrace unfolded one step. -/
lemma analyzeTrace_cons (cfg : AConfig) (st : AState) (mb : Message × BodyInfo)
    (rest : List (Message × BodyInfo)) :
    analyzeTrace cfg st (mb :: rest) =
      (analyzeMessage cfg st mb.1 mb.2).2 ::
        analyzeTrace cfg (analyzeMessage cfg st mb.1 mb.2).1 rest := rfl

/-- One cons step of the request count. -/
lemma reqCountOf_cons (m : String) (mb : Message × BodyInfo)
    (l : List (Message × BodyInfo)) :
    reqCountOf m (mb :: l) =
      (if mb.1.direction = "request" ∧ mb.1.method = m then 1 else 0) +
        reqCountOf m l := by
  unfold reqCountOf
  rw [List.filter_cons]
  by_cases h1 : mb.1.direction = "request" <;> by_cases h2 : mb.1.method = m
  · simp [h1, h2]
    omega
  · simp [h1, h2]
  · simp [h1, h2]
  · simp [h1, h2]

/-- The post-step counter at an arbitrary key, as the old counter plus the
request indicator. -/
lemma analyzeMessage_methodCounts_at (cfg : AConfig) (st : AState)
    (mb : Message × BodyInfo) (m : String) :
    (analyzeMessage cfg st mb.1 mb.2).1.methodCounts m =
      st.methodCounts m +
        (if mb.1.direction = "request" ∧ mb.1.method = m then 1 else 0) := by
  rw [analyzeMessage_methodCounts]
  by_cases h1 : mb.1.direction = "request"
  · rw [if_pos h1]
    unfold bumpCount
    by_cases h2 : mb.1.method = m
    · rw [if_pos (h2 ▸ rfl : m = mb.1.method), if_pos ⟨h1, h2⟩]
    · rw [if_neg (fun hh => h2 hh.symm), if_neg (fun hh => h2 hh.2)]
      omega
  · rw [if_neg h1, if_neg (fun hh => h1 hh.1)]
    omega

/-- The retry-loop emissions of a whole trace run from an arbitrary starting
state: at every position they are exactly the conditional singleton driven
by the starting counter plus the number of requests for that method seen up
to and including that position. -/
lemma analyzeTrace_retry_general (cfg : AConfig) :
    ∀ (msgs : List (Message × BodyInfo)) (st : AState) (i : Nat),
      i < msgs.length →
      ((analyzeTrace cfg st msgs).getD i []).filter isRetryLoopInsight =
        (if (msgs.getD i ({}, {})).1.method ≠ "" ∧
            0 < st.methodCounts (msgs.getD i ({}, {})).1.method +
                reqCountOf (msgs.getD i ({}, {})).1.method (msgs.take (i + 1)) ∧
            (st.methodCounts (msgs.getD i ({}, {})).1.method +
                reqCountOf (msgs.getD i ({}, {})).1.method (msgs.take (i + 1))) % 5 = 0 then
          [{ traceId := cfg.traceId, messageId := (msgs.getD i ({}, {})).1.id,
             itype := "warning", category := "retry_loop",
             title := "Potential Retry Loop Detected",
             details := formatRetryLoopDetails (msgs.getD i ({}, {})).1.method
               (st.methodCounts (msgs.getD i ({}, {})).1.method +
                 reqCountOf (msgs.getD i ({}, {})).1.method (msgs.take (i + 1))) }]
         else []) := by
  intro msgs
  induction msgs with
  | nil =>
    intro st i h
    simp at h
  | cons mb rest ih =>
    intro st i h
    rw [analyzeTrace_cons]
    cases i with
    | zero =>
      simp only [List.getD_cons_zero, List.take_succ_cons, List.take_zero]
      rw [analyzeMessage_retry_filter, checkRetryLoop_toList]
      have hcnt : (analyzeMessage cfg st mb.1 mb.2).1.methodCounts mb.1.method =
          st.methodCounts mb.1.method + reqCountOf mb.1.method [mb] := by
        rw [analyzeMessage_methodCounts_at, reqCountOf_cons]
        simp [reqCountOf]
      rw [hcnt]
    | succ j =>
      have hlen : j < rest.length := by simpa using h
      simp only [List.getD_cons_succ, List.take_succ_cons]
      rw [ih (analyzeMessage cfg st mb.1 mb.2).1 j hlen]
      have hX : (analyzeMessage cfg st mb.1 mb.2).1.methodCounts
            (rest.getD j ({}, {})).1.method +
            reqCountOf (rest.getD j ({}, {})).1.method (rest.take (j + 1)) =
          st.methodCounts (rest.getD j ({}, {})).1.method +
            reqCountOf (rest.getD j ({}, {})).1.method (mb :: rest.take (j + 1)) := by
        rw [analyzeMessage_methodCounts_at, reqCountOf_cons]
        omega
      rw [hX]

/-- The C5 rule as the claim words it: within one trace the analyzer emits a
retry_loop warning exactly when processing the n-th Message carrying a
non-empty method m — counting every Message with that method, whatever its
direction — for n a positive multiple of five, reporting that n. -/
def claimC5Retry (cfg : AConfig) (msgs : List (Message × BodyInfo)) : Prop :=
  ∀ i, i < msgs.length →
    ((analyzeTrace cfg initialAState msgs).getD i []).filter isRetryLoopInsight =
      (if (msgs.getD i ({}, {})).1.method ≠ "" ∧
          0 < carryCountOf (msgs.getD i ({}, {})).1.method (msgs.take (i + 1)) ∧
          carryCountOf (msgs.getD i ({}, {})).1.method (msgs.take (i + 1)) % 5 = 0 then
        [{ traceId := cfg.traceId, messageId := (msgs.getD i ({}, {})).1.id,
           itype := "warning", category := "retry_loop",
           title := "Potential Retry Loop Detected",
           details := formatRetryLoopDetails (msgs.getD i ({}, {})).1.method
             (carryCountOf (msgs.getD i ({}, {})).1.method (msgs.take (i + 1))) }]
       else [])

/-- C5, counterexample: five requests of method tasks/send followed by one
response carrying the same method.  The response is the sixth Message
carrying the method, yet the analyzer emits a retry_loop insight for it
(the request counter still reads five), so the claimed counting over all
Messages is wrong. -/
theorem c5_counterexample :
    ¬ claimC5Retry { traceId := "t", slowThresholdMs := 1000 }
        (List.replicate 5
            ({ direction := "request", method := "tasks/send", id := "q" },
              ({} : BodyInfo)) ++
          [({ direction := "response", method := "tasks/send", id := "r" },
              ({} : BodyInfo))]) := by
  intro hc
  exact absurd (hc 5 (by decide)) (by decide)

/-- C5 (amended): within one trace the analyzer emits a retry_loop warning
insight while processing a Message with non-empty method m exactly when the
number of REQUEST Messages with method m seen so far (this one included if
it is a request) is a positive multiple of five, and the insight reports
that request count; Messages with an empty method never draw one. -/
theorem c5_retry_insights (cfg : AConfig) (msgs : List (Message × BodyInfo))
    (i : Nat) (h : i < msgs.length) :
    ((analyzeTrace cfg initialAState msgs).getD i []).filter isRetryLoopInsight =
      (if (msgs.getD i ({}, {})).1.method ≠ "" ∧
          0 < reqCountOf (msgs.getD i ({}, {})).1.method (msgs.take (i + 1)) ∧
          reqCountOf (msgs.getD i ({}, {})).1.method (msgs.take (i + 1)) % 5 = 0 then
        [{ traceId := cfg.traceId, messageId := (msgs.getD i ({}, {})).1.id,
           itype := "warning", category := "retry_loop",
           title := "Potential Retry Loop Detected",
           details := formatRetryLoopDetails (msgs.getD i ({}, {})).1.method
             (reqCountOf (msgs.getD i ({}, {})).1.method (msgs.take (i + 1))) }]
       else []) := by
  have hg := analyzeTrace_retry_general cfg msgs initialAState i h
  simpa [initialAState] using hg

/-- C5 witness: on five straight requests of tasks/send, the fifth draws the
retry_loop insight reporting a count of five. -/
theorem c5_witness :
    ((analyzeTrace { traceId := "t", slowThresholdMs := 1000 } initialAState
          (List.replicate 5
            ({ direction := "request", method := "tasks/send", id := "q" },
              ({} : BodyInfo)))).getD 4 []).filter isRetryLoopInsight =
      [{ traceId := "t", messageId := "q", itype := "warning",
         category := "retry_loop", title := "Potential Retry Loop Detected",
         details := formatRetryLoopDetails "tasks/send" 5 }] :=
  c5_retry_insights { traceId := "t", slowThresholdMs := 1000 }
    (List.replicate 5
      ({ direction := "request", method := "tasks/send", id := "q" },
        ({} : BodyInfo)))
    4 (by decide)

end A2ATrace
